import Mathlib

/-!
# Verification of the aya map-of-maps subsystem

A shallow embedding of the map-of-maps subsystem of the aya eBPF library:
the userspace (dynamic) wrappers `Aya.Array` and `Aya.HashMap` over the
syscall layer, and the in-kernel-program (static) wrappers
`AyaBpf.ArrayOfMaps` and `AyaBpf.HashOfMaps` over the helper-call layer.

Machine integers (`u32`, `u64`, `RawFd`) are modelled as `Nat` (raw syscall
return codes as `Int`); none of the verified properties depend on overflow.
The external syscall layer and helper-call layer are modelled from the
spec's description of their interfaces; the wrapper code itself is
translated line by line from the Rust sources.
-/

set_option autoImplicit false

universe u v

/-! ## Association lists

Finite maps used by the kernel model (file-descriptor table, outer-map
contents). `lookupA` finds the first binding, `insertA` overwrites,
`eraseA` removes every binding of a key. -/

def lookupA {α : Type u} {β : Type v} [DecidableEq α] : List (α × β) → α → Option β
  | [], _ => none
  | (a, b) :: rest, k => if a = k then some b else lookupA rest k

def eraseA {α : Type u} {β : Type v} [DecidableEq α] : List (α × β) → α → List (α × β)
  | [], _ => []
  | (a, b) :: rest, k => if a = k then eraseA rest k else (a, b) :: eraseA rest k

def insertA {α : Type u} {β : Type v} [DecidableEq α] (l : List (α × β)) (k : α) (v : β) :
    List (α × β) :=
  (k, v) :: eraseA l k

theorem lookupA_insertA_self {α : Type u} {β : Type v} [DecidableEq α]
    (l : List (α × β)) (k : α) (v : β) : lookupA (insertA l k v) k = some v := by
  simp [insertA, lookupA]

theorem lookupA_eraseA_self {α : Type u} {β : Type v} [DecidableEq α]
    (l : List (α × β)) (k : α) : lookupA (eraseA l k) k = none := by
  induction l with
  | nil => rfl
  | cons p rest ih =>
    obtain ⟨a, b⟩ := p
    by_cases h : a = k
    · simpa [eraseA, h] using ih
    · simpa [eraseA, h, lookupA] using ih

theorem lookupA_eraseA_ne {α : Type u} {β : Type v} [DecidableEq α]
    (l : List (α × β)) (k k' : α) (h : k' ≠ k) :
    lookupA (eraseA l k) k' = lookupA l k' := by
  induction l with
  | nil => rfl
  | cons p rest ih =>
    obtain ⟨a, b⟩ := p
    by_cases hp : a = k
    · have ha : a ≠ k' := by
        intro hk
        exact h (hk ▸ hp)
      simp only [eraseA, if_pos hp, lookupA, if_neg ha]
      exact ih
    · by_cases hk : a = k'
      · simp [eraseA, hp, lookupA, hk, h]
      · simp only [eraseA, if_neg hp, lookupA, if_neg hk]
        exact ih

theorem lookupA_insertA_ne {α : Type u} {β : Type v} [DecidableEq α]
    (l : List (α × β)) (k k' : α) (v : β) (h : k' ≠ k) :
    lookupA (insertA l k v) k' = lookupA l k' := by
  have hne : k ≠ k' := fun hk => h (Eq.symm hk)
  simp only [insertA, lookupA, if_neg hne]
  exact lookupA_eraseA_ne l k k' h

theorem lookupA_mem {α : Type u} {β : Type v} [DecidableEq α]
    {l : List (α × β)} {k : α} {v : β} (h : lookupA l k = some v) : (k, v) ∈ l := by
  induction l with
  | nil => simp [lookupA] at h
  | cons p rest ih =>
    obtain ⟨a, b⟩ := p
    by_cases hp : a = k
    · simp only [lookupA, if_pos hp] at h
      subst hp
      obtain rfl : b = v := Option.some.inj h
      exact List.mem_cons_self _ _
    · simp only [lookupA, if_neg hp] at h
      exact List.mem_cons_of_mem _ (ih h)

/-! ## Shared kernel ABI descriptor

`bpf_map_def` mirrors the fixed-layout kernel map-creation record
`{map_type, key_size, value_size, max_entries, map_flags, id, pinning}`;
all fields are `u32`, modelled as `Nat`. -/

structure bpf_map_def where
  map_type : Nat
  key_size : Nat
  value_size : Nat
  max_entries : Nat
  map_flags : Nat
  id : Nat
  pinning : Nat
deriving DecidableEq, Repr

/-- Kernel ABI tag of `BPF_MAP_TYPE_ARRAY_OF_MAPS` (from the generated bindings). -/
def BPF_MAP_TYPE_ARRAY_OF_MAPS : Nat := 12

/-- Kernel ABI tag of `BPF_MAP_TYPE_HASH_OF_MAPS` (from the generated bindings). -/
def BPF_MAP_TYPE_HASH_OF_MAPS : Nat := 13

/-- `PinningType` of the aya-bpf map module: `None = 0`, `ByName = 1`. -/
inductive PinningType where
  | None
  | ByName
deriving DecidableEq, Repr

def PinningType.as_u32 : PinningType → Nat
  | .None => 0
  | .ByName => 1

/-! ## Userspace error type and map handle -/

/-- `MapError` of the aya maps module, restricted to the variants the
map-of-maps code produces. `io_error` models `std::io::Error` as its raw
OS errno. -/
inductive MapError where
  | InvalidMapType (map_type : Nat)
  | InvalidKeySize (size : Nat) (expected : Nat)
  | InvalidValueSize (size : Nat) (expected : Nat)
  | OutOfBounds (index : Nat) (max_entries : Nat)
  | KeyNotFound
  | NotCreated
  | SyscallError (call : String) (code : Int) (io_error : Nat)
deriving DecidableEq, Repr

instance {ε : Type u} {α : Type v} [DecidableEq ε] [DecidableEq α] :
    DecidableEq (Except ε α) := fun a b =>
  match a, b with
  | .ok x, .ok y =>
    if h : x = y then .isTrue (by rw [h]) else .isFalse (by simp [h])
  | .ok _, .error _ => .isFalse (by simp)
  | .error _, .ok _ => .isFalse (by simp)
  | .error e, .error e' =>
    if h : e = e' then .isTrue (by rw [h]) else .isFalse (by simp [h])

/-- The userspace generic map handle `Map`: its object's `bpf_map_def` plus
the optional process-local file descriptor (`none` before the map is loaded
into the kernel).  `obj_def` stands for the Rust `map.obj.def`. -/
structure Map where
  obj_def : bpf_map_def
  fd : Option Nat
deriving DecidableEq, Repr

/-- Modelled from the spec: the `OuterMapHandle` capability's single
operation — "obtain the live file descriptor or fail with a not loaded /
syscall error condition"; `Map::fd_or_err` is outside src, its contract is
§3/§4.1 of the spec ("requesting the descriptor before load fails"). -/
def Map.fd_or_err (m : Map) : Except MapError Nat :=
  match m.fd with
  | some fd => .ok fd
  | none => .error .NotCreated

/-! ## The syscall layer interface

The syscall layer is an external collaborator.  `Sys σ K` models its
surface as described in §6 of the spec, over an abstract world state `σ`:
each call returns its result together with the successor world.  Failures
carry the raw numeric return code (`Int`) and the OS errno (`Nat`);
`get_fd_by_id_raw` is the raw OS call behind id-to-fd resolution, whose
failure likewise carries a raw code and an errno. -/

structure Sys (σ : Type u) (K : Type v) where
  lookup_elem : σ → Nat → K → Nat → (Except (Int × Nat) (Option Nat)) × σ
  update_elem : σ → Nat → K → Nat → Nat → (Except (Int × Nat) Unit) × σ
  delete_elem : σ → Nat → K → (Except (Int × Nat) Unit) × σ
  get_fd_by_id_raw : σ → Nat → (Except (Int × Nat) Nat) × σ
  close : σ → Nat → σ

/-- Modelled from the spec: the repo's `sys::bpf_map_get_fd_by_id` wrapper
(outside src).  Its signature, visible from its call sites in src, returns
a bare `io::Error` on failure: the raw numeric return code of the OS call
is discarded and only the errno is kept. -/
def bpf_map_get_fd_by_id {σ : Type u} {K : Type v} (sys : Sys σ K) (st : σ) (id : Nat) :
    Except Nat Nat × σ :=
  match sys.get_fd_by_id_raw st id with
  | (.error e, st') => (.error e.2, st')
  | (.ok fd, st') => (.ok fd, st')

namespace Aya

/-! ## The dynamic (userspace) array-of-maps wrapper

Translated from `aya/src/maps/of_maps/array.rs`.  The generic parameter
`T : Deref<Target = Map>` is collapsed to the dereferenced `Map`. -/

structure Array where
  inner : Map
deriving DecidableEq, Repr

/-- `Array::new` (array.rs lines 29–50): validates map type tag, key size,
value size, then requires the handle to be loaded. -/
def Array.new (map : Map) : Except MapError Array :=
  let map_type := map.obj_def.map_type
  if map_type ≠ BPF_MAP_TYPE_ARRAY_OF_MAPS then
    .error (.InvalidMapType map_type)
  else
    let expected := 4
    let size := map.obj_def.key_size
    if size ≠ expected then
      .error (.InvalidKeySize size expected)
    else
      let size := map.obj_def.value_size
      if size ≠ expected then
        .error (.InvalidValueSize size expected)
      else
        match map.fd_or_err with
        | .error e => .error e
        | .ok _ => .ok ⟨map⟩

/-- `Array::check_bounds` (array.rs lines 58–65). -/
def Array.check_bounds (self : Array) (index : Nat) : Except MapError Unit :=
  let max_entries := self.inner.obj_def.max_entries
  if index ≥ self.inner.obj_def.max_entries then
    .error (.OutOfBounds index max_entries)
  else
    .ok ()

/-- `Array::get` (array.rs lines 73–90): bounds check, obtain the outer
fd, look up the inner map id, resolve it to a fresh fd; the id-to-fd
failure is wrapped with `code: 0`. -/
def Array.get {σ : Type u} (sys : Sys σ Nat) (self : Array) (st : σ) (index : Nat)
    (flags : Nat) : Except MapError Nat × σ :=
  match self.check_bounds index with
  | .error e => (.error e, st)
  | .ok _ =>
    match self.inner.fd_or_err with
    | .error e => (.error e, st)
    | .ok fd =>
      match sys.lookup_elem st fd index flags with
      | (.error (code, io_error), st') =>
        (.error (.SyscallError "bpf_map_lookup_elem" code io_error), st')
      | (.ok none, st') => (.error .KeyNotFound, st')
      | (.ok (some id), st') =>
        match bpf_map_get_fd_by_id sys st' id with
        | (.error io_error, st'') =>
          (.error (.SyscallError "bpf_map_get_fd_by_id" 0 io_error), st'')
        | (.ok inner_fd, st'') => (.ok inner_fd, st'')

/-- `Array::set` (array.rs lines 95–111): obtain the outer fd, take
ownership of the raw descriptor (`map.into_raw_fd()` — for a raw-fd
argument the identity), bounds check, update, and close the descriptor
after a successful update (the `?` on the update precedes the close). -/
def Array.set {σ : Type u} (sys : Sys σ Nat) (self : Array) (st : σ) (index : Nat)
    (map : Nat) (flags : Nat) : Except MapError Unit × σ :=
  match self.inner.fd_or_err with
  | .error e => (.error e, st)
  | .ok fd =>
    let map_fd := map
    match self.check_bounds index with
    | .error e => (.error e, st)
    | .ok _ =>
      match sys.update_elem st fd index map_fd flags with
      | (.error (code, io_error), st') =>
        (.error (.SyscallError "bpf_map_update_elem" code io_error), st')
      | (.ok _, st') => (.ok (), sys.close st' map_fd)

/-- `Array::delete` (array.rs lines 114–124). -/
def Array.delete {σ : Type u} (sys : Sys σ Nat) (self : Array) (st : σ) (index : Nat) :
    Except MapError Unit × σ :=
  match self.inner.fd_or_err with
  | .error e => (.error e, st)
  | .ok fd =>
    match self.check_bounds index with
    | .error e => (.error e, st)
    | .ok _ =>
      match sys.delete_elem st fd index with
      | (.error (code, io_error), st') =>
        (.error (.SyscallError "bpf_map_delete_elem" code io_error), st')
      | (.ok _, st') => (.ok (), st')

/-! ## The dynamic (userspace) hash-of-maps wrapper

Translated from `aya/src/maps/of_maps/hash_map.rs`.  The key type `K : Pod`
is kept as a type parameter; `mem::size_of::<K>()` is passed explicitly as
`sizeK` where the code uses it. -/

namespace hash_map

/-- Modelled from the spec: `hash_map::check_kv_size::<K, V>` (outside
src), the shared validation of §4.3/§4.5 — key size must equal
`size_of::<K>()` (else `InvalidKeySize` with actual and expected) and value
size must equal `size_of::<V>()` (else `InvalidValueSize`). -/
def check_kv_size (sizeK sizeV : Nat) (map : Map) : Except MapError Unit :=
  let size := map.obj_def.key_size
  if size ≠ sizeK then
    .error (.InvalidKeySize size sizeK)
  else
    let size := map.obj_def.value_size
    if size ≠ sizeV then
      .error (.InvalidValueSize size sizeV)
    else
      .ok ()

/-- Modelled from the spec: the generic `hash_map::insert` helper (outside
src) — obtain the map's fd, perform the update call, wrap a failure as
`SyscallError` carrying the call name, raw code and OS error (§6). -/
def insert {σ : Type u} {K : Type v} (sys : Sys σ K) (map : Map) (st : σ) (key : K)
    (value : Nat) (flags : Nat) : Except MapError Unit × σ :=
  match map.fd_or_err with
  | .error e => (.error e, st)
  | .ok fd =>
    match sys.update_elem st fd key value flags with
    | (.error (code, io_error), st') =>
      (.error (.SyscallError "bpf_map_update_elem" code io_error), st')
    | (.ok _, st') => (.ok (), st')

/-- Modelled from the spec: the generic `hash_map::remove` helper (outside
src) — obtain the map's fd, perform the delete call, wrap a failure as
`SyscallError` carrying the call name, raw code and OS error (§6). -/
def remove {σ : Type u} {K : Type v} (sys : Sys σ K) (map : Map) (st : σ) (key : K) :
    Except MapError Unit × σ :=
  match map.fd_or_err with
  | .error e => (.error e, st)
  | .ok fd =>
    match sys.delete_elem st fd key with
    | (.error (code, io_error), st') =>
      (.error (.SyscallError "bpf_map_delete_elem" code io_error), st')
    | (.ok _, st') => (.ok (), st')

end hash_map

structure HashMap (K : Type v) where
  inner : Map
deriving DecidableEq, Repr

/-- `HashMap::new` (hash_map.rs lines 32–48): validates the map type tag,
then key/value sizes through `check_kv_size::<K, u32>`, then requires the
handle to be loaded. -/
def HashMap.new (K : Type v) (sizeK : Nat) (map : Map) : Except MapError (HashMap K) :=
  let map_type := map.obj_def.map_type
  if map_type ≠ BPF_MAP_TYPE_HASH_OF_MAPS then
    .error (.InvalidMapType map_type)
  else
    match hash_map.check_kv_size sizeK 4 map with
    | .error e => .error e
    | .ok _ =>
      match map.fd_or_err with
      | .error e => .error e
      | .ok _ => .ok ⟨map⟩

/-- `HashMap::get` (hash_map.rs lines 51–66): obtain the outer fd, look up
the inner map id, resolve it to a fresh fd; the id-to-fd failure is
wrapped with `code: 0`. -/
def HashMap.get {σ : Type u} {K : Type v} (sys : Sys σ K) (self : HashMap K) (st : σ)
    (key : K) (flags : Nat) : Except MapError Nat × σ :=
  match self.inner.fd_or_err with
  | .error e => (.error e, st)
  | .ok fd =>
    match sys.lookup_elem st fd key flags with
    | (.error (code, io_error), st') =>
      (.error (.SyscallError "bpf_map_lookup_elem" code io_error), st')
    | (.ok none, st') => (.error .KeyNotFound, st')
    | (.ok (some id), st') =>
      match bpf_map_get_fd_by_id sys st' id with
      | (.error io_error, st'') =>
        (.error (.SyscallError "bpf_map_get_fd_by_id" 0 io_error), st'')
      | (.ok inner_fd, st'') => (.ok inner_fd, st'')

/-- `HashMap::insert` (hash_map.rs lines 83–91): take ownership of the raw
descriptor, insert through the generic helper, and close the descriptor
after a successful insert (the `?` on the helper precedes the close). -/
def HashMap.insert {σ : Type u} {K : Type v} (sys : Sys σ K) (self : HashMap K) (st : σ)
    (key : K) (value : Nat) (flags : Nat) : Except MapError Unit × σ :=
  let map_fd := value
  match hash_map.insert sys self.inner st key map_fd flags with
  | (.error e, st') => (.error e, st')
  | (.ok _, st') => (.ok (), sys.close st' map_fd)

/-- `HashMap::remove` (hash_map.rs lines 94–96). -/
def HashMap.remove {σ : Type u} {K : Type v} (sys : Sys σ K) (self : HashMap K) (st : σ)
    (key : K) : Except MapError Unit × σ :=
  hash_map.remove sys self.inner st key

/-- The `IterableMap<K, RawFd>` impl for `HashMap` (hash_map.rs lines
104–106): `get` with `flags` fixed to 0. -/
def HashMap.iterableGet {σ : Type u} {K : Type v} (sys : Sys σ K) (self : HashMap K)
    (st : σ) (key : K) : Except MapError Nat × σ :=
  HashMap.get sys self st key 0

/-- Modelled from the spec: `MapIter` (outside src), the lazy sequence of
`(key, descriptor)` pairs of §4.3 — each key produced by kernel key
iteration (the `keys` argument) is resolved through the `IterableMap`
`get` of the wrapper being iterated. -/
def MapIter.run {σ : Type u} {K : Type v} (sys : Sys σ K) (self : HashMap K) :
    List K → σ → List (K × Except MapError Nat) × σ
  | [], st => ([], st)
  | k :: ks, st =>
    let (r, st') := HashMap.iterableGet sys self st k
    let (rest, st'') := MapIter.run sys self ks st'
    ((k, r) :: rest, st'')

/-- `HashMap::iter` (hash_map.rs lines 70–72): constructs the `MapIter`
over this wrapper. -/
def HashMap.iter {σ : Type u} {K : Type v} (sys : Sys σ K) (self : HashMap K)
    (keys : List K) (st : σ) : List (K × Except MapError Nat) × σ :=
  MapIter.run sys self keys st

end Aya

/-! ## The embedded (in-kernel-program) wrappers

Translated from `bpf/aya-bpf/src/maps/array_of_maps.rs` and
`hash_of_maps.rs`.  The helper-call layer's single lookup helper is
modelled from the spec (§6): it reads the outer map's contents (an
association list from key bytes to the stored 4-byte value) and returns
the value on hit or null (`none`) on miss. -/

namespace AyaBpf

/-- Modelled from the spec: the helper-call layer's lookup helper
`bpf_map_lookup_elem` (§6) — "one lookup helper taking a pointer to the
map descriptor and a pointer to the key, returning a raw pointer or
null".  The pointed-to contents of the outer map are the `contents`
association list. -/
def bpf_map_lookup_elem {K : Type v} [DecidableEq K] (contents : List (K × Nat)) (key : K) :
    Option Nat :=
  lookupA contents key

structure ArrayOfMaps where
  map_def : bpf_map_def
deriving DecidableEq, Repr

/-- `ArrayOfMaps::with_max_entries` (array_of_maps.rs lines 17–29). -/
def ArrayOfMaps.with_max_entries (max_entries : Nat) (flags : Nat) : ArrayOfMaps :=
  { map_def :=
      { map_type := BPF_MAP_TYPE_ARRAY_OF_MAPS
        key_size := 4
        value_size := 4
        max_entries := max_entries
        map_flags := flags
        id := 0
        pinning := PinningType.None.as_u32 } }

/-- `ArrayOfMaps::pinned` (array_of_maps.rs lines 31–43). -/
def ArrayOfMaps.pinned (max_entries : Nat) (flags : Nat) : ArrayOfMaps :=
  { map_def :=
      { map_type := BPF_MAP_TYPE_ARRAY_OF_MAPS
        key_size := 4
        value_size := 4
        max_entries := max_entries
        map_flags := flags
        id := 0
        pinning := PinningType.ByName.as_u32 } }

/-- `ArrayOfMaps::get` (array_of_maps.rs lines 45–56): one helper call;
`none` when the helper returns null, the 4-byte value otherwise.  The Rust
receiver is `&mut self` and the helper reads kernel-held contents, so the
embedding returns the (unchanged) wrapper and contents alongside the
result to make the frame conditions provable. -/
def ArrayOfMaps.get (self : ArrayOfMaps) (contents : List (Nat × Nat)) (index : Nat) :
    Option Nat × ArrayOfMaps × List (Nat × Nat) :=
  match bpf_map_lookup_elem contents index with
  | none => (none, self, contents)
  | some value => (some value, self, contents)

structure HashOfMaps (K : Type v) where
  map_def : bpf_map_def
deriving DecidableEq, Repr

/-- `HashOfMaps::with_max_entries` (hash_of_maps.rs lines 18–31);
`sizeK` stands for `mem::size_of::<K>()`. -/
def HashOfMaps.with_max_entries (K : Type v) (sizeK : Nat) (max_entries : Nat)
    (flags : Nat) : HashOfMaps K :=
  { map_def :=
      { map_type := BPF_MAP_TYPE_HASH_OF_MAPS
        key_size := sizeK
        value_size := 4
        max_entries := max_entries
        map_flags := flags
        id := 0
        pinning := PinningType.None.as_u32 } }

/-- `HashOfMaps::pinned` (hash_of_maps.rs lines 33–46). -/
def HashOfMaps.pinned (K : Type v) (sizeK : Nat) (max_entries : Nat)
    (flags : Nat) : HashOfMaps K :=
  { map_def :=
      { map_type := BPF_MAP_TYPE_HASH_OF_MAPS
        key_size := sizeK
        value_size := 4
        max_entries := max_entries
        map_flags := flags
        id := 0
        pinning := PinningType.ByName.as_u32 } }

/-- `HashOfMaps::get` (hash_of_maps.rs lines 48–59). -/
def HashOfMaps.get {K : Type v} [DecidableEq K] (self : HashOfMaps K)
    (contents : List (K × Nat)) (key : K) : Option Nat × HashOfMaps K × List (K × Nat) :=
  match bpf_map_lookup_elem contents key with
  | none => (none, self, contents)
  | some value => (some value, self, contents)

/-- The complete runtime interface of the embedded array wrapper: `get` is
its only non-`const` method (array_of_maps.rs), so a runtime operation is
exactly an application of `get` at some index. -/
inductive StaticArrayOp where
  | get (index : Nat)
deriving DecidableEq, Repr

/-- Run a sequence of embedded array-wrapper operations, collecting each
result and threading the wrapper and the kernel-held contents. -/
def StaticArrayOp.runList (self : ArrayOfMaps) (contents : List (Nat × Nat)) :
    List StaticArrayOp → List (Option Nat) × ArrayOfMaps × List (Nat × Nat)
  | [] => ([], self, contents)
  | .get index :: ops =>
    let (r, self', contents') := ArrayOfMaps.get self contents index
    let (rs, self'', contents'') := StaticArrayOp.runList self' contents' ops
    (r :: rs, self'', contents'')

/-- The complete runtime interface of the embedded hash wrapper: `get` is
its only non-`const` method (hash_of_maps.rs). -/
inductive StaticHashOp (K : Type v) where
  | get (key : K)
deriving DecidableEq, Repr

/-- Run a sequence of embedded hash-wrapper operations. -/
def StaticHashOp.runList {K : Type v} [DecidableEq K] (self : HashOfMaps K)
    (contents : List (K × Nat)) :
    List (StaticHashOp K) → List (Option Nat) × HashOfMaps K × List (K × Nat)
  | [] => ([], self, contents)
  | .get key :: ops =>
    let (r, self', contents') := HashOfMaps.get self contents key
    let (rs, self'', contents'') := StaticHashOp.runList self' contents' ops
    (r :: rs, self'', contents'')

end AyaBpf

/-! ## A concrete kernel model

Modelled from the spec (§6): the kernel world as seen through the syscall
surface.  `fdTable` maps the calling process's open descriptors to kernel
map ids; `contents` maps an outer map's id to its (key ↦ inner-map-id)
entries; `liveIds` lists the ids of all live kernel map objects;
`nextFd` is the next descriptor the kernel hands out.  Updates on a
map-of-maps take an fd as value and store the id it resolves to; lookups
return the stored id; `get_fd_by_id` materialises a fresh descriptor for a
live id. -/

structure KernelState (K : Type v) where
  fdTable : List (Nat × Nat)
  contents : List (Nat × List (K × Nat))
  liveIds : List Nat
  nextFd : Nat
deriving DecidableEq, Repr

/-- Modelled from the spec (§6): the syscall layer over `KernelState`.
Failures return the raw code `-1` and an errno (`EBADF = 9` for a dead
descriptor, `EINVAL = 22` for a non-outer map, `ENOENT = 2` for a missing
key or id). -/
def kernelSys (K : Type v) [DecidableEq K] : Sys (KernelState K) K where
  lookup_elem st fd key _flags :=
    match lookupA st.fdTable fd with
    | none => (.error (-1, 9), st)
    | some mid =>
      match lookupA st.contents mid with
      | none => (.error (-1, 22), st)
      | some entries => (.ok (lookupA entries key), st)
  update_elem st fd key value _flags :=
    match lookupA st.fdTable fd with
    | none => (.error (-1, 9), st)
    | some mid =>
      match lookupA st.contents mid with
      | none => (.error (-1, 22), st)
      | some entries =>
        match lookupA st.fdTable value with
        | none => (.error (-1, 9), st)
        | some innerId =>
          (.ok (), { st with contents := insertA st.contents mid (insertA entries key innerId) })
  delete_elem st fd key :=
    match lookupA st.fdTable fd with
    | none => (.error (-1, 9), st)
    | some mid =>
      match lookupA st.contents mid with
      | none => (.error (-1, 22), st)
      | some entries =>
        match lookupA entries key with
        | none => (.error (-1, 2), st)
        | some _ =>
          (.ok (), { st with contents := insertA st.contents mid (eraseA entries key) })
  get_fd_by_id_raw st id :=
    if id ∈ st.liveIds then
      (.ok st.nextFd,
        { st with fdTable := (st.nextFd, id) :: st.fdTable, nextFd := st.nextFd + 1 })
    else
      (.error (-1, 2), st)
  close st fd := { st with fdTable := eraseA st.fdTable fd }

/-- A syscall layer over a trace state: the world is the list of
descriptors passed to `close`, the data calls return the fixed results
given as arguments.  Used to observe exactly which close calls the
wrappers make and to drive each error path. -/
def traceSys (K : Type v) (lookupRes : Except (Int × Nat) (Option Nat))
    (updateRes : Except (Int × Nat) Unit) (deleteRes : Except (Int × Nat) Unit)
    (fdByIdRes : Except (Int × Nat) Nat) : Sys (List Nat) K where
  lookup_elem st _ _ _ := (lookupRes, st)
  update_elem st _ _ _ _ := (updateRes, st)
  delete_elem st _ _ := (deleteRes, st)
  get_fd_by_id_raw st _ := (fdByIdRes, st)
  close st fd := st ++ [fd]

/-! ## Helper lemmas -/

theorem ArrayOfMaps_get_eq (self : AyaBpf.ArrayOfMaps) (contents : List (Nat × Nat))
    (index : Nat) :
    AyaBpf.ArrayOfMaps.get self contents index =
      (AyaBpf.bpf_map_lookup_elem contents index, self, contents) := by
  cases h : AyaBpf.bpf_map_lookup_elem contents index <;>
    simp [AyaBpf.ArrayOfMaps.get, h]

theorem HashOfMaps_get_eq {K : Type} [DecidableEq K] (self : AyaBpf.HashOfMaps K)
    (contents : List (K × Nat)) (key : K) :
    AyaBpf.HashOfMaps.get self contents key =
      (AyaBpf.bpf_map_lookup_elem contents key, self, contents) := by
  cases h : AyaBpf.bpf_map_lookup_elem contents key <;>
    simp [AyaBpf.HashOfMaps.get, h]

theorem StaticArrayOp_runList_frame (self : AyaBpf.ArrayOfMaps)
    (contents : List (Nat × Nat)) (ops : List AyaBpf.StaticArrayOp) :
    (AyaBpf.StaticArrayOp.runList self contents ops).2.1 = self ∧
      (AyaBpf.StaticArrayOp.runList self contents ops).2.2 = contents := by
  induction ops with
  | nil => exact ⟨rfl, rfl⟩
  | cons op ops ih =>
    cases op with
    | get index =>
      simp only [AyaBpf.StaticArrayOp.runList, ArrayOfMaps_get_eq]
      exact ih

theorem StaticHashOp_runList_frame {K : Type} [DecidableEq K] (self : AyaBpf.HashOfMaps K)
    (contents : List (K × Nat)) (ops : List (AyaBpf.StaticHashOp K)) :
    (AyaBpf.StaticHashOp.runList self contents ops).2.1 = self ∧
      (AyaBpf.StaticHashOp.runList self contents ops).2.2 = contents := by
  induction ops with
  | nil => exact ⟨rfl, rfl⟩
  | cons op ops ih =>
    cases op with
    | get key =>
      simp only [AyaBpf.StaticHashOp.runList, HashOfMaps_get_eq]
      exact ih

/-! ## Claim theorems -/

/-- C7: the embedded wrappers expose no operation that mutates the outer
map's contents — their complete runtime interface (`StaticArrayOp`,
`StaticHashOp`) consists of `get` alone, and any sequence of these
operations leaves both the wrapper's stored map descriptor and the
kernel-held outer-map contents unchanged, while each `get` performs the
single lookup helper call, yielding the 4-byte value on hit and `none`
when the helper returns null. -/
theorem static_side_is_read_only {K : Type} [DecidableEq K]
    (aself : AyaBpf.ArrayOfMaps) (acontents : List (Nat × Nat))
    (aops : List AyaBpf.StaticArrayOp)
    (hself : AyaBpf.HashOfMaps K) (hcontents : List (K × Nat))
    (hops : List (AyaBpf.StaticHashOp K)) :
    ((AyaBpf.StaticArrayOp.runList aself acontents aops).2.1 = aself ∧
      (AyaBpf.StaticArrayOp.runList aself acontents aops).2.2 = acontents) ∧
    ((AyaBpf.StaticHashOp.runList hself hcontents hops).2.1 = hself ∧
      (AyaBpf.StaticHashOp.runList hself hcontents hops).2.2 = hcontents) ∧
    (∀ index, AyaBpf.ArrayOfMaps.get aself acontents index =
      (AyaBpf.bpf_map_lookup_elem acontents index, aself, acontents)) ∧
    (∀ key, AyaBpf.HashOfMaps.get hself hcontents key =
      (AyaBpf.bpf_map_lookup_elem hcontents key, hself, hcontents)) :=
  ⟨StaticArrayOp_runList_frame aself acontents aops,
   StaticHashOp_runList_frame hself hcontents hops,
   fun index => ArrayOfMaps_get_eq aself acontents index,
   fun key => HashOfMaps_get_eq hself hcontents key⟩

/-- C8: for all capacity and flags arguments, the embedded constructors
produce a descriptor with the respective map-of-maps tag, key size 4
(array) or `size_of::<K>()` (hash), value size 4, the given capacity and
flags, id 0; `with_max_entries` and `pinned` differ only in the pinning
field (`None` vs `ByName`). -/
theorem embedded_constructor_descriptor_layout (K : Type) (sizeK capacity flags : Nat) :
    (AyaBpf.ArrayOfMaps.with_max_entries capacity flags).map_def =
      ⟨BPF_MAP_TYPE_ARRAY_OF_MAPS, 4, 4, capacity, flags, 0, PinningType.None.as_u32⟩ ∧
    (AyaBpf.ArrayOfMaps.pinned capacity flags).map_def =
      ⟨BPF_MAP_TYPE_ARRAY_OF_MAPS, 4, 4, capacity, flags, 0, PinningType.ByName.as_u32⟩ ∧
    (AyaBpf.HashOfMaps.with_max_entries K sizeK capacity flags).map_def =
      ⟨BPF_MAP_TYPE_HASH_OF_MAPS, sizeK, 4, capacity, flags, 0, PinningType.None.as_u32⟩ ∧
    (AyaBpf.HashOfMaps.pinned K sizeK capacity flags).map_def =
      ⟨BPF_MAP_TYPE_HASH_OF_MAPS, sizeK, 4, capacity, flags, 0, PinningType.ByName.as_u32⟩ ∧
    (AyaBpf.ArrayOfMaps.pinned capacity flags).map_def =
      { (AyaBpf.ArrayOfMaps.with_max_entries capacity flags).map_def with
          pinning := PinningType.ByName.as_u32 } ∧
    (AyaBpf.HashOfMaps.pinned K sizeK capacity flags).map_def =
      { (AyaBpf.HashOfMaps.with_max_entries K sizeK capacity flags).map_def with
          pinning := PinningType.ByName.as_u32 } :=
  ⟨rfl, rfl, rfl, rfl, rfl, rfl⟩

/-- C2 counterexample: a handle whose declared type tag (0) and key size
(8) are both wrong.  Construction reports only `InvalidMapType`; the
key-size mismatch yields no `InvalidKeySize` error, so the three checks
are not evaluated unconditionally and independently of one another — a
later check is skipped as soon as an earlier one fails. -/
theorem abi_checks_not_independent :
    Aya.Array.new ⟨⟨0, 8, 4, 1, 0, 0, 0⟩, some 3⟩ = .error (.InvalidMapType 0) ∧
    Aya.Array.new ⟨⟨0, 8, 4, 1, 0, 0, 0⟩, some 3⟩ ≠ .error (.InvalidKeySize 8 4) ∧
    Aya.HashMap.new Nat 4 ⟨⟨0, 8, 4, 1, 0, 0, 0⟩, some 3⟩ = .error (.InvalidMapType 0) ∧
    Aya.HashMap.new Nat 4 ⟨⟨0, 8, 4, 1, 0, 0, 0⟩, some 3⟩ ≠ .error (.InvalidKeySize 8 4) := by
  decide

/-- C2 (amended): the three ABI checks are evaluated in a fixed order —
type tag, then key size, then value size — each short-circuiting
construction, and each mismatch that is reached yields its own distinct,
fully-populated error: `InvalidMapType` carrying the actual tag,
`InvalidKeySize`/`InvalidValueSize` carrying actual and expected sizes; a
mismatch in a later field is reported only when the earlier fields
match. -/
theorem abi_checks_ordered_and_distinct (K : Type) (sizeK : Nat) (amap hmap : Map) :
    ((amap.obj_def.map_type ≠ BPF_MAP_TYPE_ARRAY_OF_MAPS →
        Aya.Array.new amap = .error (.InvalidMapType amap.obj_def.map_type)) ∧
      (amap.obj_def.map_type = BPF_MAP_TYPE_ARRAY_OF_MAPS →
        amap.obj_def.key_size ≠ 4 →
        Aya.Array.new amap = .error (.InvalidKeySize amap.obj_def.key_size 4)) ∧
      (amap.obj_def.map_type = BPF_MAP_TYPE_ARRAY_OF_MAPS →
        amap.obj_def.key_size = 4 → amap.obj_def.value_size ≠ 4 →
        Aya.Array.new amap = .error (.InvalidValueSize amap.obj_def.value_size 4))) ∧
    ((hmap.obj_def.map_type ≠ BPF_MAP_TYPE_HASH_OF_MAPS →
        Aya.HashMap.new K sizeK hmap = .error (.InvalidMapType hmap.obj_def.map_type)) ∧
      (hmap.obj_def.map_type = BPF_MAP_TYPE_HASH_OF_MAPS →
        hmap.obj_def.key_size ≠ sizeK →
        Aya.HashMap.new K sizeK hmap = .error (.InvalidKeySize hmap.obj_def.key_size sizeK)) ∧
      (hmap.obj_def.map_type = BPF_MAP_TYPE_HASH_OF_MAPS →
        hmap.obj_def.key_size = sizeK → hmap.obj_def.value_size ≠ 4 →
        Aya.HashMap.new K sizeK hmap = .error (.InvalidValueSize hmap.obj_def.value_size 4))) := by
  refine ⟨⟨?_, ?_, ?_⟩, ⟨?_, ?_, ?_⟩⟩
  · intro h1
    simp [Aya.Array.new, h1]
  · intro h1 h2
    simp [Aya.Array.new, h1, h2]
  · intro h1 h2 h3
    simp [Aya.Array.new, h1, h2, h3]
  · intro h1
    simp [Aya.HashMap.new, h1]
  · intro h1 h2
    simp [Aya.HashMap.new, Aya.hash_map.check_kv_size, h1, h2]
  · intro h1 h2 h3
    simp [Aya.HashMap.new, Aya.hash_map.check_kv_size, h1, h2, h3]

/-- C2 amended-claim witness: each branch evaluated at a concrete handle
exhibiting exactly that mismatch. -/
theorem abi_checks_ordered_and_distinct_witness :
    Aya.Array.new ⟨⟨7, 4, 4, 1, 0, 0, 0⟩, some 3⟩ = .error (.InvalidMapType 7) ∧
    Aya.Array.new ⟨⟨12, 8, 4, 1, 0, 0, 0⟩, some 3⟩ = .error (.InvalidKeySize 8 4) ∧
    Aya.Array.new ⟨⟨12, 4, 2, 1, 0, 0, 0⟩, some 3⟩ = .error (.InvalidValueSize 2 4) ∧
    Aya.HashMap.new Nat 8 ⟨⟨7, 8, 4, 1, 0, 0, 0⟩, some 3⟩ = .error (.InvalidMapType 7) ∧
    Aya.HashMap.new Nat 8 ⟨⟨13, 4, 4, 1, 0, 0, 0⟩, some 3⟩ = .error (.InvalidKeySize 4 8) ∧
    Aya.HashMap.new Nat 8 ⟨⟨13, 8, 2, 1, 0, 0, 0⟩, some 3⟩ = .error (.InvalidValueSize 2 4) :=
  ⟨(abi_checks_ordered_and_distinct Nat 8 ⟨⟨7, 4, 4, 1, 0, 0, 0⟩, some 3⟩
      ⟨⟨7, 8, 4, 1, 0, 0, 0⟩, some 3⟩).1.1 (by decide),
   (abi_checks_ordered_and_distinct Nat 8 ⟨⟨12, 8, 4, 1, 0, 0, 0⟩, some 3⟩
      ⟨⟨7, 8, 4, 1, 0, 0, 0⟩, some 3⟩).1.2.1 (by decide) (by decide),
   (abi_checks_ordered_and_distinct Nat 8 ⟨⟨12, 4, 2, 1, 0, 0, 0⟩, some 3⟩
      ⟨⟨7, 8, 4, 1, 0, 0, 0⟩, some 3⟩).1.2.2 (by decide) (by decide) (by decide),
   (abi_checks_ordered_and_distinct Nat 8 ⟨⟨12, 4, 4, 1, 0, 0, 0⟩, some 3⟩
      ⟨⟨7, 8, 4, 1, 0, 0, 0⟩, some 3⟩).2.1 (by decide),
   (abi_checks_ordered_and_distinct Nat 8 ⟨⟨12, 4, 4, 1, 0, 0, 0⟩, some 3⟩
      ⟨⟨13, 4, 4, 1, 0, 0, 0⟩, some 3⟩).2.2.1 (by decide) (by decide),
   (abi_checks_ordered_and_distinct Nat 8 ⟨⟨12, 4, 4, 1, 0, 0, 0⟩, some 3⟩
      ⟨⟨13, 8, 2, 1, 0, 0, 0⟩, some 3⟩).2.2.2 (by decide) (by decide) (by decide)⟩

/-- C9: the dynamic wrapper constructors succeed only when the underlying
handle's file descriptor is obtainable: a successfully constructed wrapper
always wraps a handle whose descriptor is present (the map is loaded), and
when `fd_or_err` fails on an otherwise ABI-valid handle the constructor
propagates the not-loaded error. -/
theorem dynamic_construction_requires_loaded (K : Type) (sizeK : Nat) (amap hmap : Map) :
    (∀ a, Aya.Array.new amap = .ok a → a.inner = amap ∧ ∃ fd, amap.fd = some fd) ∧
    (amap.fd = none → amap.obj_def.map_type = BPF_MAP_TYPE_ARRAY_OF_MAPS →
      amap.obj_def.key_size = 4 → amap.obj_def.value_size = 4 →
      Aya.Array.new amap = .error .NotCreated) ∧
    (∀ h, Aya.HashMap.new K sizeK hmap = .ok h → h.inner = hmap ∧ ∃ fd, hmap.fd = some fd) ∧
    (hmap.fd = none → hmap.obj_def.map_type = BPF_MAP_TYPE_HASH_OF_MAPS →
      hmap.obj_def.key_size = sizeK → hmap.obj_def.value_size = 4 →
      Aya.HashMap.new K sizeK hmap = .error .NotCreated) := by
  refine ⟨?_, ?_, ?_, ?_⟩
  · intro a ha
    by_cases h1 : amap.obj_def.map_type = BPF_MAP_TYPE_ARRAY_OF_MAPS
    · by_cases h2 : amap.obj_def.key_size = 4
      · by_cases h3 : amap.obj_def.value_size = 4
        · cases hfd : amap.fd with
          | none => simp [Aya.Array.new, h1, h2, h3, Map.fd_or_err, hfd] at ha
          | some fd =>
            simp [Aya.Array.new, h1, h2, h3, Map.fd_or_err, hfd] at ha
            exact ⟨by rw [← ha], fd, rfl⟩
        · simp [Aya.Array.new, h1, h2, h3] at ha
      · simp [Aya.Array.new, h1, h2] at ha
    · simp [Aya.Array.new, h1] at ha
  · intro hnone h1 h2 h3
    simp [Aya.Array.new, h1, h2, h3, Map.fd_or_err, hnone]
  · intro h hh
    by_cases h1 : hmap.obj_def.map_type = BPF_MAP_TYPE_HASH_OF_MAPS
    · by_cases h2 : hmap.obj_def.key_size = sizeK
      · by_cases h3 : hmap.obj_def.value_size = 4
        · cases hfd : hmap.fd with
          | none =>
            simp [Aya.HashMap.new, Aya.hash_map.check_kv_size, h1, h2, h3,
              Map.fd_or_err, hfd] at hh
          | some fd =>
            simp [Aya.HashMap.new, Aya.hash_map.check_kv_size, h1, h2, h3,
              Map.fd_or_err, hfd] at hh
            exact ⟨by rw [← hh], fd, rfl⟩
        · simp [Aya.HashMap.new, Aya.hash_map.check_kv_size, h1, h2, h3] at hh
      · simp [Aya.HashMap.new, Aya.hash_map.check_kv_size, h1, h2] at hh
    · simp [Aya.HashMap.new, h1] at hh
  · intro hnone h1 h2 h3
    simp [Aya.HashMap.new, Aya.hash_map.check_kv_size, h1, h2, h3, Map.fd_or_err, hnone]

/-- C9 witness: a loaded array-of-maps handle constructs successfully and
wraps that handle; unloaded but ABI-valid handles of both forms are
rejected with the not-loaded error. -/
theorem dynamic_construction_requires_loaded_witness :
    (⟨⟨⟨12, 4, 4, 8, 0, 0, 0⟩, some 3⟩⟩ : Aya.Array).inner = ⟨⟨12, 4, 4, 8, 0, 0, 0⟩, some 3⟩ ∧
    (∃ fd, (⟨⟨12, 4, 4, 8, 0, 0, 0⟩, some 3⟩ : Map).fd = some fd) ∧
    Aya.Array.new ⟨⟨12, 4, 4, 8, 0, 0, 0⟩, none⟩ = .error .NotCreated ∧
    Aya.HashMap.new Nat 4 ⟨⟨13, 4, 4, 8, 0, 0, 0⟩, none⟩ = .error .NotCreated := by
  have h1 := (dynamic_construction_requires_loaded Nat 4 ⟨⟨12, 4, 4, 8, 0, 0, 0⟩, some 3⟩
    ⟨⟨13, 4, 4, 8, 0, 0, 0⟩, none⟩).1 ⟨⟨⟨12, 4, 4, 8, 0, 0, 0⟩, some 3⟩⟩ (by decide)
  have h2 := (dynamic_construction_requires_loaded Nat 4 ⟨⟨12, 4, 4, 8, 0, 0, 0⟩, none⟩
    ⟨⟨13, 4, 4, 8, 0, 0, 0⟩, none⟩).2.1 rfl rfl rfl rfl
  have h3 := (dynamic_construction_requires_loaded Nat 4 ⟨⟨12, 4, 4, 8, 0, 0, 0⟩, none⟩
    ⟨⟨13, 4, 4, 8, 0, 0, 0⟩, none⟩).2.2.2 rfl rfl rfl rfl
  exact ⟨h1.1, h1.2, h2, h3⟩

/-- C3: for a dynamic array wrapper over a loaded map with
`max_entries = N`, `get`/`set`/`delete` never fail with `OutOfBounds` for
an index below `N` — whatever the syscall layer does — and for every
index `≥ N` each of them fails with `OutOfBounds` carrying that index and
`N`. -/
theorem array_bounds_law {σ : Type} (sys : Sys σ Nat) (self : Aya.Array) (st : σ)
    (N index flags mapfd fd : Nat)
    (hN : self.inner.obj_def.max_entries = N) (hfd : self.inner.fd = some fd) :
    (index < N →
      (∀ i m, (Aya.Array.get sys self st index flags).1 ≠ .error (.OutOfBounds i m)) ∧
      (∀ i m, (Aya.Array.set sys self st index mapfd flags).1 ≠ .error (.OutOfBounds i m)) ∧
      (∀ i m, (Aya.Array.delete sys self st index).1 ≠ .error (.OutOfBounds i m))) ∧
    (N ≤ index →
      (Aya.Array.get sys self st index flags).1 = .error (.OutOfBounds index N) ∧
      (Aya.Array.set sys self st index mapfd flags).1 = .error (.OutOfBounds index N) ∧
      (Aya.Array.delete sys self st index).1 = .error (.OutOfBounds index N)) := by
  constructor
  · intro hlt
    have hcb : self.check_bounds index = .ok () := by
      simp [Aya.Array.check_bounds, hN, Nat.not_le.mpr hlt]
    refine ⟨?_, ?_, ?_⟩
    · intro i m
      simp only [Aya.Array.get, hcb, Map.fd_or_err, hfd]
      rcases hl : sys.lookup_elem st fd index flags with ⟨res, st'⟩
      rcases res with e | val
      · obtain ⟨code, io⟩ := e
        simp
      · rcases val with _ | id
        · simp
        · rcases hb : bpf_map_get_fd_by_id sys st' id with ⟨res2, st''⟩
          rcases res2 with io | innerFd <;> simp [hb]
    · intro i m
      simp only [Aya.Array.set, hcb, Map.fd_or_err, hfd]
      rcases hu : sys.update_elem st fd index mapfd flags with ⟨res, st'⟩
      rcases res with e | val
      · obtain ⟨code, io⟩ := e
        simp
      · simp
    · intro i m
      simp only [Aya.Array.delete, hcb, Map.fd_or_err, hfd]
      rcases hd : sys.delete_elem st fd index with ⟨res, st'⟩
      rcases res with e | val
      · obtain ⟨code, io⟩ := e
        simp
      · simp
  · intro hge
    have hcb : self.check_bounds index = .error (.OutOfBounds index N) := by
      simp [Aya.Array.check_bounds, hN, hge]
    refine ⟨?_, ?_, ?_⟩
    · simp only [Aya.Array.get, hcb]
    · simp only [Aya.Array.set, hcb, Map.fd_or_err, hfd]
    · simp only [Aya.Array.delete, hcb, Map.fd_or_err, hfd]

/-- C3 witness: with `max_entries = 8`, index 3 is accepted by all three
operations and index 9 is rejected with `OutOfBounds 9 8` by all three. -/
theorem array_bounds_law_witness :
    ((∀ i m, (Aya.Array.get (traceSys Nat (.ok none) (.ok ()) (.ok ()) (.ok 0))
        ⟨⟨⟨12, 4, 4, 8, 0, 0, 0⟩, some 5⟩⟩ [] 3 0).1 ≠ .error (.OutOfBounds i m)) ∧
      (∀ i m, (Aya.Array.set (traceSys Nat (.ok none) (.ok ()) (.ok ()) (.ok 0))
        ⟨⟨⟨12, 4, 4, 8, 0, 0, 0⟩, some 5⟩⟩ [] 3 7 0).1 ≠ .error (.OutOfBounds i m)) ∧
      (∀ i m, (Aya.Array.delete (traceSys Nat (.ok none) (.ok ()) (.ok ()) (.ok 0))
        ⟨⟨⟨12, 4, 4, 8, 0, 0, 0⟩, some 5⟩⟩ [] 3).1 ≠ .error (.OutOfBounds i m))) ∧
    ((Aya.Array.get (traceSys Nat (.ok none) (.ok ()) (.ok ()) (.ok 0))
        ⟨⟨⟨12, 4, 4, 8, 0, 0, 0⟩, some 5⟩⟩ [] 9 0).1 = .error (.OutOfBounds 9 8) ∧
      (Aya.Array.set (traceSys Nat (.ok none) (.ok ()) (.ok ()) (.ok 0))
        ⟨⟨⟨12, 4, 4, 8, 0, 0, 0⟩, some 5⟩⟩ [] 9 7 0).1 = .error (.OutOfBounds 9 8) ∧
      (Aya.Array.delete (traceSys Nat (.ok none) (.ok ()) (.ok ()) (.ok 0))
        ⟨⟨⟨12, 4, 4, 8, 0, 0, 0⟩, some 5⟩⟩ [] 9).1 = .error (.OutOfBounds 9 8)) :=
  ⟨(array_bounds_law (traceSys Nat (.ok none) (.ok ()) (.ok ()) (.ok 0))
      ⟨⟨⟨12, 4, 4, 8, 0, 0, 0⟩, some 5⟩⟩ [] 8 3 0 7 5 rfl rfl).1 (by decide),
   (array_bounds_law (traceSys Nat (.ok none) (.ok ()) (.ok ()) (.ok 0))
      ⟨⟨⟨12, 4, 4, 8, 0, 0, 0⟩, some 5⟩⟩ [] 8 9 0 7 5 rfl rfl).2 (by decide)⟩

/-- C5: whenever the underlying lookup call succeeds but finds no value —
for an in-bounds index on the array form, or any key on the hash form —
`get` returns `KeyNotFound`, not a raw `SyscallError`. -/
theorem get_unwritten_returns_key_not_found {σ σ' : Type} {K : Type}
    (sys : Sys σ Nat) (sysK : Sys σ' K) (aself : Aya.Array) (hself : Aya.HashMap K)
    (st₁ : σ) (st₁' : σ) (st₂ : σ') (st₂' : σ')
    (index flags afd kflags kfd : Nat) (key : K)
    (hafd : aself.inner.fd = some afd)
    (hix : index < aself.inner.obj_def.max_entries)
    (halk : sys.lookup_elem st₁ afd index flags = (.ok none, st₁'))
    (hhfd : hself.inner.fd = some kfd)
    (hhlk : sysK.lookup_elem st₂ kfd key kflags = (.ok none, st₂')) :
    (Aya.Array.get sys aself st₁ index flags).1 = .error .KeyNotFound ∧
    (Aya.HashMap.get sysK hself st₂ key kflags).1 = .error .KeyNotFound := by
  constructor
  · have hcb : aself.check_bounds index = .ok () := by
      simp [Aya.Array.check_bounds, Nat.not_le.mpr hix]
    simp [Aya.Array.get, hcb, Map.fd_or_err, hafd, halk]
  · simp [Aya.HashMap.get, Map.fd_or_err, hhfd, hhlk]

/-- C5 witness: a syscall layer whose lookup succeeds with no value makes
both `get` forms return `KeyNotFound` at a concrete in-bounds index/key. -/
theorem get_unwritten_returns_key_not_found_witness :
    (Aya.Array.get (traceSys Nat (.ok none) (.ok ()) (.ok ()) (.ok 0))
      ⟨⟨⟨12, 4, 4, 8, 0, 0, 0⟩, some 5⟩⟩ [] 3 0).1 = .error .KeyNotFound ∧
    (Aya.HashMap.get (traceSys Nat (.ok none) (.ok ()) (.ok ()) (.ok 0))
      (⟨⟨⟨13, 4, 4, 8, 0, 0, 0⟩, some 5⟩⟩ : Aya.HashMap Nat) [] 42 0).1 = .error .KeyNotFound :=
  get_unwritten_returns_key_not_found (traceSys Nat (.ok none) (.ok ()) (.ok ()) (.ok 0))
    (traceSys Nat (.ok none) (.ok ()) (.ok ()) (.ok 0))
    ⟨⟨⟨12, 4, 4, 8, 0, 0, 0⟩, some 5⟩⟩ ⟨⟨⟨13, 4, 4, 8, 0, 0, 0⟩, some 5⟩⟩
    [] [] [] [] 3 0 5 0 5 42 rfl (by decide) rfl rfl rfl

/-- C6 counterexample: the id-to-fd resolution call inside `get` fails at
the syscall layer with raw return code `-1` and errno 9, yet the surfaced
`SyscallError` carries `code = 0` — not the raw numeric return code of
that call. -/
theorem get_fd_by_id_raw_code_not_surfaced :
    (Aya.Array.get (traceSys Nat (.ok (some 100)) (.ok ()) (.ok ()) (.error (-1, 9)))
        ⟨⟨⟨12, 4, 4, 8, 0, 0, 0⟩, some 5⟩⟩ [] 0 0).1
      = .error (.SyscallError "bpf_map_get_fd_by_id" 0 9) ∧
    (.error (.SyscallError "bpf_map_get_fd_by_id" 0 9) : Except MapError Nat) ≠
      .error (.SyscallError "bpf_map_get_fd_by_id" (-1) 9) := by
  decide

/-- C6 (amended): every syscall-layer failure in the dynamic wrappers'
operations is surfaced as a `SyscallError` carrying the name of the
originating call and the underlying OS error; the lookup, update and
delete failures additionally carry the raw numeric return code of the
call, while the id-to-fd resolution failure inside `get` (and inside the
iterator's per-key resolution) carries `code = 0` — the raw code of that
call is discarded by the sys wrapper. -/
theorem syscall_failures_surfaced {σ σ' : Type} {K : Type}
    (sys : Sys σ Nat) (sysK : Sys σ' K) (aself : Aya.Array) (hself : Aya.HashMap K)
    (st st' st'' : σ) (t t' t'' : σ') (index flags mapfd afd kfd id : Nat) (key : K)
    (code code2 : Int) (io io2 : Nat) :
    (aself.inner.fd = some afd → index < aself.inner.obj_def.max_entries →
      sys.lookup_elem st afd index flags = (.error (code, io), st') →
      (Aya.Array.get sys aself st index flags).1 =
        .error (.SyscallError "bpf_map_lookup_elem" code io)) ∧
    (aself.inner.fd = some afd → index < aself.inner.obj_def.max_entries →
      sys.lookup_elem st afd index flags = (.ok (some id), st') →
      sys.get_fd_by_id_raw st' id = (.error (code2, io2), st'') →
      (Aya.Array.get sys aself st index flags).1 =
        .error (.SyscallError "bpf_map_get_fd_by_id" 0 io2)) ∧
    (aself.inner.fd = some afd → index < aself.inner.obj_def.max_entries →
      sys.update_elem st afd index mapfd flags = (.error (code, io), st') →
      (Aya.Array.set sys aself st index mapfd flags).1 =
        .error (.SyscallError "bpf_map_update_elem" code io)) ∧
    (aself.inner.fd = some afd → index < aself.inner.obj_def.max_entries →
      sys.delete_elem st afd index = (.error (code, io), st') →
      (Aya.Array.delete sys aself st index).1 =
        .error (.SyscallError "bpf_map_delete_elem" code io)) ∧
    (hself.inner.fd = some kfd →
      sysK.lookup_elem t kfd key flags = (.error (code, io), t') →
      (Aya.HashMap.get sysK hself t key flags).1 =
        .error (.SyscallError "bpf_map_lookup_elem" code io)) ∧
    (hself.inner.fd = some kfd →
      sysK.lookup_elem t kfd key flags = (.ok (some id), t') →
      sysK.get_fd_by_id_raw t' id = (.error (code2, io2), t'') →
      (Aya.HashMap.get sysK hself t key flags).1 =
        .error (.SyscallError "bpf_map_get_fd_by_id" 0 io2)) ∧
    (hself.inner.fd = some kfd →
      sysK.update_elem t kfd key mapfd flags = (.error (code, io), t') →
      (Aya.HashMap.insert sysK hself t key mapfd flags).1 =
        .error (.SyscallError "bpf_map_update_elem" code io)) ∧
    (hself.inner.fd = some kfd →
      sysK.delete_elem t kfd key = (.error (code, io), t') →
      (Aya.HashMap.remove sysK hself t key).1 =
        .error (.SyscallError "bpf_map_delete_elem" code io)) ∧
    (hself.inner.fd = some kfd →
      sysK.lookup_elem t kfd key 0 = (.error (code, io), t') →
      (Aya.HashMap.iterableGet sysK hself t key).1 =
        .error (.SyscallError "bpf_map_lookup_elem" code io)) := by
  refine ⟨?_, ?_, ?_, ?_, ?_, ?_, ?_, ?_, ?_⟩
  · intro h1 h2 h3
    have hcb : aself.check_bounds index = .ok () := by
      simp [Aya.Array.check_bounds, Nat.not_le.mpr h2]
    simp [Aya.Array.get, hcb, Map.fd_or_err, h1, h3]
  · intro h1 h2 h3 h4
    have hcb : aself.check_bounds index = .ok () := by
      simp [Aya.Array.check_bounds, Nat.not_le.mpr h2]
    simp [Aya.Array.get, hcb, Map.fd_or_err, h1, h3, bpf_map_get_fd_by_id, h4]
  · intro h1 h2 h3
    have hcb : aself.check_bounds index = .ok () := by
      simp [Aya.Array.check_bounds, Nat.not_le.mpr h2]
    simp [Aya.Array.set, hcb, Map.fd_or_err, h1, h3]
  · intro h1 h2 h3
    have hcb : aself.check_bounds index = .ok () := by
      simp [Aya.Array.check_bounds, Nat.not_le.mpr h2]
    simp [Aya.Array.delete, hcb, Map.fd_or_err, h1, h3]
  · intro h1 h2
    simp [Aya.HashMap.get, Map.fd_or_err, h1, h2]
  · intro h1 h2 h3
    simp [Aya.HashMap.get, Map.fd_or_err, h1, h2, bpf_map_get_fd_by_id, h3]
  · intro h1 h2
    simp [Aya.HashMap.insert, Aya.hash_map.insert, Map.fd_or_err, h1, h2]
  · intro h1 h2
    simp [Aya.HashMap.remove, Aya.hash_map.remove, Map.fd_or_err, h1, h2]
  · intro h1 h2
    simp [Aya.HashMap.iterableGet, Aya.HashMap.get, Map.fd_or_err, h1, h2]

/-- C6 amended-claim witness: each failure shape evaluated on a concrete
trace syscall layer. -/
theorem syscall_failures_surfaced_witness :
    (Aya.Array.get (traceSys Nat (.error (-1, 13)) (.ok ()) (.ok ()) (.ok 0))
        ⟨⟨⟨12, 4, 4, 8, 0, 0, 0⟩, some 5⟩⟩ [] 3 0).1 =
      .error (.SyscallError "bpf_map_lookup_elem" (-1) 13) ∧
    (Aya.HashMap.remove (traceSys Nat (.ok none) (.ok ()) (.error (-1, 2)) (.ok 0))
        (⟨⟨⟨13, 4, 4, 8, 0, 0, 0⟩, some 5⟩⟩ : Aya.HashMap Nat) [] 42).1 =
      .error (.SyscallError "bpf_map_delete_elem" (-1) 2) :=
  ⟨(syscall_failures_surfaced (traceSys Nat (.error (-1, 13)) (.ok ()) (.ok ()) (.ok 0))
      (traceSys Nat (.error (-1, 13)) (.ok ()) (.ok ()) (.ok 0))
      ⟨⟨⟨12, 4, 4, 8, 0, 0, 0⟩, some 5⟩⟩ ⟨⟨⟨13, 4, 4, 8, 0, 0, 0⟩, some 5⟩⟩
      [] [] [] [] [] [] 3 0 7 5 5 100 42 (-1) 0 13 0).1 rfl (by decide) rfl,
   (syscall_failures_surfaced (traceSys Nat (.ok none) (.ok ()) (.error (-1, 2)) (.ok 0))
      (traceSys Nat (.ok none) (.ok ()) (.error (-1, 2)) (.ok 0))
      ⟨⟨⟨12, 4, 4, 8, 0, 0, 0⟩, some 5⟩⟩ ⟨⟨⟨13, 4, 4, 8, 0, 0, 0⟩, some 5⟩⟩
      [] [] [] [] [] [] 3 0 7 5 5 100 42 (-1) 0 2 0).2.2.2.2.2.2.2.1 rfl rfl⟩

/-- C1 counterexample: at `max_entries = 8`, `set(9, fd 7)` exits with
`OutOfBounds` and the trace of closed descriptors stays empty, and a
failing update syscall makes `set`/`insert` exit with `SyscallError`
again without closing descriptor 7 — only the success exit closes it.
The caller-supplied descriptor is therefore not closed on every exit
path. -/
theorem set_insert_error_paths_do_not_close :
    Aya.Array.set (traceSys Nat (.ok none) (.ok ()) (.ok ()) (.ok 0))
        ⟨⟨⟨12, 4, 4, 8, 0, 0, 0⟩, some 5⟩⟩ [] 9 7 0 = (.error (.OutOfBounds 9 8), []) ∧
    Aya.Array.set (traceSys Nat (.ok none) (.error (-1, 9)) (.ok ()) (.ok 0))
        ⟨⟨⟨12, 4, 4, 8, 0, 0, 0⟩, some 5⟩⟩ [] 3 7 0 =
      (.error (.SyscallError "bpf_map_update_elem" (-1) 9), []) ∧
    Aya.HashMap.insert (traceSys Nat (.ok none) (.error (-1, 9)) (.ok ()) (.ok 0))
        (⟨⟨⟨13, 4, 4, 8, 0, 0, 0⟩, some 5⟩⟩ : Aya.HashMap Nat) [] 42 7 0 =
      (.error (.SyscallError "bpf_map_update_elem" (-1) 9), []) ∧
    Aya.Array.set (traceSys Nat (.ok none) (.ok ()) (.ok ()) (.ok 0))
        ⟨⟨⟨12, 4, 4, 8, 0, 0, 0⟩, some 5⟩⟩ [] 3 7 0 = (.ok (), [7]) ∧
    Aya.HashMap.insert (traceSys Nat (.ok none) (.ok ()) (.ok ()) (.ok 0))
        (⟨⟨⟨13, 4, 4, 8, 0, 0, 0⟩, some 5⟩⟩ : Aya.HashMap Nat) [] 42 7 0 = (.ok (), [7]) := by
  decide

/-- C1 (amended): the caller-supplied descriptor is consumed on every
path that reaches the ownership transfer, but it is closed exactly on the
success exit of `set`/`insert`: after a successful update the final world
is the post-update world with one `close` of that descriptor applied,
while on the not-loaded, `OutOfBounds` and `SyscallError` exits the
operation returns without any close, leaking the userspace duplicate. -/
theorem set_insert_close_only_on_success {σ σ' : Type} {K : Type}
    (sys : Sys σ Nat) (sysK : Sys σ' K) (aself : Aya.Array) (hself : Aya.HashMap K)
    (st st' : σ) (t t' : σ') (index mapfd flags afd kfd : Nat) (key : K)
    (code : Int) (io : Nat) :
    (aself.inner.fd = none →
      Aya.Array.set sys aself st index mapfd flags = (.error .NotCreated, st)) ∧
    (aself.inner.fd = some afd → aself.inner.obj_def.max_entries ≤ index →
      Aya.Array.set sys aself st index mapfd flags =
        (.error (.OutOfBounds index aself.inner.obj_def.max_entries), st)) ∧
    (aself.inner.fd = some afd → index < aself.inner.obj_def.max_entries →
      sys.update_elem st afd index mapfd flags = (.ok (), st') →
      Aya.Array.set sys aself st index mapfd flags = (.ok (), sys.close st' mapfd)) ∧
    (aself.inner.fd = some afd → index < aself.inner.obj_def.max_entries →
      sys.update_elem st afd index mapfd flags = (.error (code, io), st') →
      Aya.Array.set sys aself st index mapfd flags =
        (.error (.SyscallError "bpf_map_update_elem" code io), st')) ∧
    (hself.inner.fd = none →
      Aya.HashMap.insert sysK hself t key mapfd flags = (.error .NotCreated, t)) ∧
    (hself.inner.fd = some kfd → sysK.update_elem t kfd key mapfd flags = (.ok (), t') →
      Aya.HashMap.insert sysK hself t key mapfd flags = (.ok (), sysK.close t' mapfd)) ∧
    (hself.inner.fd = some kfd →
      sysK.update_elem t kfd key mapfd flags = (.error (code, io), t') →
      Aya.HashMap.insert sysK hself t key mapfd flags =
        (.error (.SyscallError "bpf_map_update_elem" code io), t')) := by
  refine ⟨?_, ?_, ?_, ?_, ?_, ?_, ?_⟩
  · intro h1
    simp [Aya.Array.set, Map.fd_or_err, h1]
  · intro h1 h2
    simp [Aya.Array.set, Map.fd_or_err, h1, Aya.Array.check_bounds, h2]
  · intro h1 h2 h3
    have hcb : aself.check_bounds index = .ok () := by
      simp [Aya.Array.check_bounds, Nat.not_le.mpr h2]
    simp [Aya.Array.set, hcb, Map.fd_or_err, h1, h3]
  · intro h1 h2 h3
    have hcb : aself.check_bounds index = .ok () := by
      simp [Aya.Array.check_bounds, Nat.not_le.mpr h2]
    simp [Aya.Array.set, hcb, Map.fd_or_err, h1, h3]
  · intro h1
    simp [Aya.HashMap.insert, Aya.hash_map.insert, Map.fd_or_err, h1]
  · intro h1 h2
    simp [Aya.HashMap.insert, Aya.hash_map.insert, Map.fd_or_err, h1, h2]
  · intro h1 h2
    simp [Aya.HashMap.insert, Aya.hash_map.insert, Map.fd_or_err, h1, h2]

/-- C1 amended-claim witness: on the trace layer, the success exits of
`set` and `insert` close exactly descriptor 7 and the out-of-bounds exit
closes nothing. -/
theorem set_insert_close_only_on_success_witness :
    Aya.Array.set (traceSys Nat (.ok none) (.ok ()) (.ok ()) (.ok 0))
        ⟨⟨⟨12, 4, 4, 8, 0, 0, 0⟩, some 5⟩⟩ [] 3 7 0 = (.ok (), [] ++ [7]) ∧
    Aya.HashMap.insert (traceSys Nat (.ok none) (.ok ()) (.ok ()) (.ok 0))
        (⟨⟨⟨13, 4, 4, 8, 0, 0, 0⟩, some 5⟩⟩ : Aya.HashMap Nat) [] 42 7 0 =
      (.ok (), [] ++ [7]) ∧
    Aya.Array.set (traceSys Nat (.ok none) (.ok ()) (.ok ()) (.ok 0))
        ⟨⟨⟨12, 4, 4, 8, 0, 0, 0⟩, some 5⟩⟩ [] 9 7 0 = (.error (.OutOfBounds 9 8), []) :=
  ⟨(set_insert_close_only_on_success (traceSys Nat (.ok none) (.ok ()) (.ok ()) (.ok 0))
      (traceSys Nat (.ok none) (.ok ()) (.ok ()) (.ok 0))
      ⟨⟨⟨12, 4, 4, 8, 0, 0, 0⟩, some 5⟩⟩ ⟨⟨⟨13, 4, 4, 8, 0, 0, 0⟩, some 5⟩⟩
      [] [] [] [] 3 7 0 5 5 42 (-1) 9).2.2.1 rfl (by decide) rfl,
   (set_insert_close_only_on_success (traceSys Nat (.ok none) (.ok ()) (.ok ()) (.ok 0))
      (traceSys Nat (.ok none) (.ok ()) (.ok ()) (.ok 0))
      ⟨⟨⟨12, 4, 4, 8, 0, 0, 0⟩, some 5⟩⟩ ⟨⟨⟨13, 4, 4, 8, 0, 0, 0⟩, some 5⟩⟩
      [] [] [] [] 3 7 0 5 5 42 (-1) 9).2.2.2.2.2.1 rfl rfl,
   (set_insert_close_only_on_success (traceSys Nat (.ok none) (.ok ()) (.ok ()) (.ok 0))
      (traceSys Nat (.ok none) (.ok ()) (.ok ()) (.ok 0))
      ⟨⟨⟨12, 4, 4, 8, 0, 0, 0⟩, some 5⟩⟩ ⟨⟨⟨13, 4, 4, 8, 0, 0, 0⟩, some 5⟩⟩
      [] [] [] [] 9 7 0 5 5 42 (-1) 9).2.1 rfl (by decide)⟩

/-- C10: every `(key, descriptor)` pair yielded by the lazy iterator of
the dynamic hash wrapper pairs a yielded key with exactly the result of
`get(key, 0)` — the per-key resolution is the `IterableMap` `get`, whose
`flags` argument is fixed to 0 (evaluated in the world state reached at
that point of the iteration). -/
theorem iter_resolves_each_key_with_flags_zero {σ : Type} {K : Type}
    (sys : Sys σ K) (self : Aya.HashMap K) (keys : List K) (st : σ) :
    ∀ p ∈ (Aya.HashMap.iter sys self keys st).1,
      p.1 ∈ keys ∧ ∃ st', p.2 = (Aya.HashMap.get sys self st' p.1 0).1 := by
  induction keys generalizing st with
  | nil =>
    intro p hp
    simp [Aya.HashMap.iter, Aya.MapIter.run] at hp
  | cons k ks ih =>
    intro p hp
    rcases hg : Aya.HashMap.iterableGet sys self st k with ⟨r, st1⟩
    rcases hr : Aya.MapIter.run sys self ks st1 with ⟨rest, st2⟩
    simp only [Aya.HashMap.iter, Aya.MapIter.run, hg, hr] at hp
    rcases List.mem_cons.mp hp with h | h
    · subst h
      refine ⟨List.mem_cons_self _ _, st, ?_⟩
      have hq : Aya.HashMap.get sys self st k 0 = (r, st1) := hg
      simp [hq]
    · have hrec := ih st1
      simp only [Aya.HashMap.iter, hr] at hrec
      rcases hrec p h with ⟨hmem, st', heq⟩
      exact ⟨List.mem_cons_of_mem _ hmem, st', heq⟩

/-- C10 witness: on a concrete trace layer the iterator over keys
`[1, 2]` yields the pair `(1, ok 7)`, whose descriptor is the result of
`get(1, 0)` in some world state. -/
theorem iter_resolves_each_key_with_flags_zero_witness :
    ((1 : Nat), (.ok 7 : Except MapError Nat)).1 ∈ [1, 2] ∧
    ∃ st', ((1 : Nat), (.ok 7 : Except MapError Nat)).2 =
      (Aya.HashMap.get (traceSys Nat (.ok (some 100)) (.ok ()) (.ok ()) (.ok 7))
        (⟨⟨⟨13, 4, 4, 8, 0, 0, 0⟩, some 5⟩⟩ : Aya.HashMap Nat) st' 1 0).1 :=
  iter_resolves_each_key_with_flags_zero
    (traceSys Nat (.ok (some 100)) (.ok ()) (.ok ()) (.ok 7))
    (⟨⟨⟨13, 4, 4, 8, 0, 0, 0⟩, some 5⟩⟩ : Aya.HashMap Nat) [1, 2] []
    (1, .ok 7) (by decide)

theorem round_trip_array_aux (st : KernelState Nat) (self : Aya.Array)
    (entries : List (Nat × Nat)) (ofd oid N index afd aid fl1 fl2 fl3 : Nat)
    (hfd : self.inner.fd = some ofd)
    (hN : self.inner.obj_def.max_entries = N)
    (hix : index < N)
    (hofd : lookupA st.fdTable ofd = some oid)
    (hoc : lookupA st.contents oid = some entries)
    (hafd : lookupA st.fdTable afd = some aid)
    (hlive : aid ∈ st.liveIds)
    (hwf : ∀ p ∈ st.fdTable, p.1 < st.nextFd)
    (hne : ofd ≠ afd) :
    ∃ st1 newfd st2 st3,
      Aya.Array.set (kernelSys Nat) self st index afd fl1 = (.ok (), st1) ∧
      Aya.Array.get (kernelSys Nat) self st1 index fl2 = (.ok newfd, st2) ∧
      lookupA st2.fdTable newfd = some aid ∧ newfd ≠ afd ∧
      Aya.Array.delete (kernelSys Nat) self st2 index = (.ok (), st3) ∧
      (Aya.Array.get (kernelSys Nat) self st3 index fl3).1 = .error .KeyNotFound := by
  have hofd_lt : ofd < st.nextFd := hwf _ (lookupA_mem hofd)
  have hafd_lt : afd < st.nextFd := hwf _ (lookupA_mem hafd)
  have hcb : self.check_bounds index = .ok () := by
    simp [Aya.Array.check_bounds, hN, Nat.not_le.mpr hix]
  refine ⟨⟨eraseA st.fdTable afd,
            insertA st.contents oid (insertA entries index aid),
            st.liveIds, st.nextFd⟩,
          st.nextFd,
          ⟨(st.nextFd, aid) :: eraseA st.fdTable afd,
            insertA st.contents oid (insertA entries index aid),
            st.liveIds, st.nextFd + 1⟩,
          ⟨(st.nextFd, aid) :: eraseA st.fdTable afd,
            insertA (insertA st.contents oid (insertA entries index aid)) oid
              (eraseA (insertA entries index aid) index),
            st.liveIds, st.nextFd + 1⟩,
          ?_, ?_, ?_, ?_, ?_, ?_⟩
  · simp [Aya.Array.set, hcb, Map.fd_or_err, hfd, kernelSys, hofd, hoc, hafd]
  · simp [Aya.Array.get, hcb, Map.fd_or_err, hfd, kernelSys, bpf_map_get_fd_by_id,
      lookupA_eraseA_ne st.fdTable afd ofd hne, hofd, lookupA_insertA_self, hlive]
  · simp [lookupA]
  · exact Nat.ne_of_gt hafd_lt
  · simp [Aya.Array.delete, hcb, Map.fd_or_err, hfd, kernelSys, lookupA,
      Nat.ne_of_gt hofd_lt, lookupA_eraseA_ne st.fdTable afd ofd hne, hofd,
      lookupA_insertA_self]
  · simp [Aya.Array.get, hcb, Map.fd_or_err, hfd, kernelSys, lookupA,
      Nat.ne_of_gt hofd_lt, lookupA_eraseA_ne st.fdTable afd ofd hne, hofd,
      lookupA_insertA_self, lookupA_eraseA_self]

theorem round_trip_hash_aux {K : Type} [DecidableEq K] (st : KernelState K)
    (self : Aya.HashMap K) (entries : List (K × Nat)) (ofd oid bfd bid : Nat) (key : K)
    (fl1 fl2 fl3 : Nat)
    (hfd : self.inner.fd = some ofd)
    (hofd : lookupA st.fdTable ofd = some oid)
    (hoc : lookupA st.contents oid = some entries)
    (hbfd : lookupA st.fdTable bfd = some bid)
    (hlive : bid ∈ st.liveIds)
    (hwf : ∀ p ∈ st.fdTable, p.1 < st.nextFd)
    (hne : ofd ≠ bfd) :
    ∃ st1 newfd st2 st3,
      Aya.HashMap.insert (kernelSys K) self st key bfd fl1 = (.ok (), st1) ∧
      Aya.HashMap.get (kernelSys K) self st1 key fl2 = (.ok newfd, st2) ∧
      lookupA st2.fdTable newfd = some bid ∧ newfd ≠ bfd ∧
      Aya.HashMap.remove (kernelSys K) self st2 key = (.ok (), st3) ∧
      (Aya.HashMap.get (kernelSys K) self st3 key fl3).1 = .error .KeyNotFound := by
  have hofd_lt : ofd < st.nextFd := hwf _ (lookupA_mem hofd)
  have hbfd_lt : bfd < st.nextFd := hwf _ (lookupA_mem hbfd)
  refine ⟨⟨eraseA st.fdTable bfd,
            insertA st.contents oid (insertA entries key bid),
            st.liveIds, st.nextFd⟩,
          st.nextFd,
          ⟨(st.nextFd, bid) :: eraseA st.fdTable bfd,
            insertA st.contents oid (insertA entries key bid),
            st.liveIds, st.nextFd + 1⟩,
          ⟨(st.nextFd, bid) :: eraseA st.fdTable bfd,
            insertA (insertA st.contents oid (insertA entries key bid)) oid
              (eraseA (insertA entries key bid) key),
            st.liveIds, st.nextFd + 1⟩,
          ?_, ?_, ?_, ?_, ?_, ?_⟩
  · simp [Aya.HashMap.insert, Aya.hash_map.insert, Map.fd_or_err, hfd, kernelSys,
      hofd, hoc, hbfd]
  · simp [Aya.HashMap.get, Map.fd_or_err, hfd, kernelSys, bpf_map_get_fd_by_id,
      lookupA_eraseA_ne st.fdTable bfd ofd hne, hofd, lookupA_insertA_self, hlive]
  · simp [lookupA]
  · exact Nat.ne_of_gt hbfd_lt
  · simp [Aya.HashMap.remove, Aya.hash_map.remove, Map.fd_or_err, hfd, kernelSys, lookupA,
      Nat.ne_of_gt hofd_lt, lookupA_eraseA_ne st.fdTable bfd ofd hne, hofd,
      lookupA_insertA_self]
  · simp [Aya.HashMap.get, Map.fd_or_err, hfd, kernelSys, lookupA,
      Nat.ne_of_gt hofd_lt, lookupA_eraseA_ne st.fdTable bfd ofd hne, hofd,
      lookupA_insertA_self, lookupA_eraseA_self]

/-- C4: round-trip over kernel state.  On the concrete kernel model, after
a successful `set`/`insert` of an inner map (whose descriptor resolves to
kernel id `aid`/`bid`) at an in-bounds index / at a key, `get` succeeds
and returns a fresh descriptor that resolves to that same kernel map id —
while the raw descriptor integer differs from the inserted one — and
after a subsequent successful `delete`/`remove`, `get` fails with
`KeyNotFound`. -/
theorem dynamic_round_trip {K : Type} [DecidableEq K]
    (ast : KernelState Nat) (aself : Aya.Array) (aentries : List (Nat × Nat))
    (aofd aoid N index afd aid af1 af2 af3 : Nat)
    (bst : KernelState K) (bself : Aya.HashMap K) (bentries : List (K × Nat))
    (bofd boid bfd bid : Nat) (key : K) (bf1 bf2 bf3 : Nat)
    (ha1 : aself.inner.fd = some aofd)
    (ha2 : aself.inner.obj_def.max_entries = N)
    (ha3 : index < N)
    (ha4 : lookupA ast.fdTable aofd = some aoid)
    (ha5 : lookupA ast.contents aoid = some aentries)
    (ha6 : lookupA ast.fdTable afd = some aid)
    (ha7 : aid ∈ ast.liveIds)
    (ha8 : ∀ p ∈ ast.fdTable, p.1 < ast.nextFd)
    (ha9 : aofd ≠ afd)
    (hb1 : bself.inner.fd = some bofd)
    (hb2 : lookupA bst.fdTable bofd = some boid)
    (hb3 : lookupA bst.contents boid = some bentries)
    (hb4 : lookupA bst.fdTable bfd = some bid)
    (hb5 : bid ∈ bst.liveIds)
    (hb6 : ∀ p ∈ bst.fdTable, p.1 < bst.nextFd)
    (hb7 : bofd ≠ bfd) :
    (∃ st1 newfd st2 st3,
      Aya.Array.set (kernelSys Nat) aself ast index afd af1 = (.ok (), st1) ∧
      Aya.Array.get (kernelSys Nat) aself st1 index af2 = (.ok newfd, st2) ∧
      lookupA st2.fdTable newfd = some aid ∧ newfd ≠ afd ∧
      Aya.Array.delete (kernelSys Nat) aself st2 index = (.ok (), st3) ∧
      (Aya.Array.get (kernelSys Nat) aself st3 index af3).1 = .error .KeyNotFound) ∧
    (∃ st1 newfd st2 st3,
      Aya.HashMap.insert (kernelSys K) bself bst key bfd bf1 = (.ok (), st1) ∧
      Aya.HashMap.get (kernelSys K) bself st1 key bf2 = (.ok newfd, st2) ∧
      lookupA st2.fdTable newfd = some bid ∧ newfd ≠ bfd ∧
      Aya.HashMap.remove (kernelSys K) bself st2 key = (.ok (), st3) ∧
      (Aya.HashMap.get (kernelSys K) bself st3 key bf3).1 = .error .KeyNotFound) :=
  ⟨round_trip_array_aux ast aself aentries aofd aoid N index afd aid af1 af2 af3
      ha1 ha2 ha3 ha4 ha5 ha6 ha7 ha8 ha9,
   round_trip_hash_aux bst bself bentries bofd boid bfd bid key bf1 bf2 bf3
      hb1 hb2 hb3 hb4 hb5 hb6 hb7⟩

/-- C4 witness: Scenario A and B made concrete — outer array map
(`max_entries = 8`, fd 5, id 100) receives inner map A (fd 7, id 200) at
index 3; outer hash map (fd 5, id 100) receives inner map B (fd 7,
id 200) at key 42. -/
theorem dynamic_round_trip_witness :
    (∃ st1 newfd st2 st3,
      Aya.Array.set (kernelSys Nat) ⟨⟨⟨12, 4, 4, 8, 0, 0, 0⟩, some 5⟩⟩
          ⟨[(5, 100), (7, 200)], [(100, [])], [100, 200], 10⟩ 3 7 0 = (.ok (), st1) ∧
      Aya.Array.get (kernelSys Nat) ⟨⟨⟨12, 4, 4, 8, 0, 0, 0⟩, some 5⟩⟩ st1 3 0 =
        (.ok newfd, st2) ∧
      lookupA st2.fdTable newfd = some 200 ∧ newfd ≠ 7 ∧
      Aya.Array.delete (kernelSys Nat) ⟨⟨⟨12, 4, 4, 8, 0, 0, 0⟩, some 5⟩⟩ st2 3 =
        (.ok (), st3) ∧
      (Aya.Array.get (kernelSys Nat) ⟨⟨⟨12, 4, 4, 8, 0, 0, 0⟩, some 5⟩⟩ st3 3 0).1 =
        .error .KeyNotFound) ∧
    (∃ st1 newfd st2 st3,
      Aya.HashMap.insert (kernelSys Nat) (⟨⟨⟨13, 4, 4, 8, 0, 0, 0⟩, some 5⟩⟩ : Aya.HashMap Nat)
          ⟨[(5, 100), (7, 200)], [(100, [])], [100, 200], 10⟩ 42 7 0 = (.ok (), st1) ∧
      Aya.HashMap.get (kernelSys Nat) (⟨⟨⟨13, 4, 4, 8, 0, 0, 0⟩, some 5⟩⟩ : Aya.HashMap Nat)
          st1 42 0 = (.ok newfd, st2) ∧
      lookupA st2.fdTable newfd = some 200 ∧ newfd ≠ 7 ∧
      Aya.HashMap.remove (kernelSys Nat) (⟨⟨⟨13, 4, 4, 8, 0, 0, 0⟩, some 5⟩⟩ : Aya.HashMap Nat)
          st2 42 = (.ok (), st3) ∧
      (Aya.HashMap.get (kernelSys Nat) (⟨⟨⟨13, 4, 4, 8, 0, 0, 0⟩, some 5⟩⟩ : Aya.HashMap Nat)
          st3 42 0).1 = .error .KeyNotFound) :=
  dynamic_round_trip ⟨[(5, 100), (7, 200)], [(100, [])], [100, 200], 10⟩
    ⟨⟨⟨12, 4, 4, 8, 0, 0, 0⟩, some 5⟩⟩ [] 5 100 8 3 7 200 0 0 0
    ⟨[(5, 100), (7, 200)], [(100, [])], [100, 200], 10⟩
    (⟨⟨⟨13, 4, 4, 8, 0, 0, 0⟩, some 5⟩⟩ : Aya.HashMap Nat) [] 5 100 7 200 42 0 0 0
    rfl rfl (by decide) (by decide) (by decide) (by decide) (by decide) (by decide)
    (by decide) rfl (by decide) (by decide) (by decide) (by decide) (by decide) (by decide)
